import Mathlib

/-!
Verification of the jarvis-ai-assistant dictation core against its
natural-language specification.  JavaScript strings are modelled as
`List Char` (ASCII case semantics, matching the source's use of the
regex class A-Z and of toLowerCase/toUpperCase on ASCII input); the
stateful module-level variables are modelled by explicit state records;
fallible calls return `Option`.
-/

namespace Jarvis

/-- JS whitespace as consumed by `String.prototype.trim` and the regex
class used in `fast-streaming-paster.ts` (space, tab, LF, CR, VT, FF). -/
def jsIsSpace (c : Char) : Bool :=
  c == ' ' || c == '\t' || c == '\n' || c == '\r' ||
  c == Char.ofNat 11 || c == Char.ofNat 12

/-- JS `String.prototype.trim`: strip leading and trailing whitespace. -/
def jsTrim (s : List Char) : List Char :=
  ((s.dropWhile jsIsSpace).reverse.dropWhile jsIsSpace).reverse

/-- JS truthiness of a `string | null` value: `null` and the empty
string are falsy. -/
def jsTruthyStr : Option (List Char) → Bool
  | none => false
  | some t => !t.isEmpty

/-- Result record returned by `transcribeWithBestModel`
(src/src/transcription/gpt4o-transcriber.ts): `text` is `null` exactly
when every backend failed. -/
structure GPT4oTranscribeResult where
  text : Option (List Char)
deriving DecidableEq

/-- One backend invocation performed by the fallback chain: which
backend (by position in the fixed priority order) and which
dictionary-context hint string it was handed. -/
structure ChainCall where
  idx : Nat
  hints : Option (List Char)
deriving DecidableEq

/-- `transcribeWithBestModel` (gpt4o-transcriber.ts, lines 127-161).
`invoke i ctx` abstracts the i-th backend call
(`transcribeWithGPT4oMini`, `transcribeWithGPT4oTranscribe`,
`transcribeWithWhisper1`), each of which returns a string or `null`;
the chain checks each result for JS truthiness (`if (result)`), returns
on the first truthy result, and returns `text := null` when all three
fail.  The second component records the backend invocations actually
performed, in order, with the hint string passed to each. -/
def transcribeWithBestModelRun
    (invoke : Nat → Option (List Char) → Option (List Char))
    (dictionaryContext : Option (List Char)) :
    GPT4oTranscribeResult × List ChainCall :=
  let r0 := invoke 0 dictionaryContext
  if jsTruthyStr r0 then ({ text := r0 }, [⟨0, dictionaryContext⟩])
  else
    let r1 := invoke 1 dictionaryContext
    if jsTruthyStr r1 then
      ({ text := r1 }, [⟨0, dictionaryContext⟩, ⟨1, dictionaryContext⟩])
    else
      let r2 := invoke 2 dictionaryContext
      if jsTruthyStr r2 then
        ({ text := r2 },
         [⟨0, dictionaryContext⟩, ⟨1, dictionaryContext⟩, ⟨2, dictionaryContext⟩])
      else
        ({ text := none },
         [⟨0, dictionaryContext⟩, ⟨1, dictionaryContext⟩, ⟨2, dictionaryContext⟩])

/-- One multipart form field, as appended by `FormData.append`. -/
structure FormEntry where
  name : List Char
  value : List Char
deriving DecidableEq

/-- Form data built by `transcribeWithGPT4oMini`
(gpt4o-transcriber.ts, lines 13-48): file, model, response format, and
-- only when the dictionary context is truthy -- a prompt field holding
the labeled recognition-hint string. -/
def gpt4oMiniForm (audioFilePath : List Char)
    (dictionaryContext : Option (List Char)) : List FormEntry :=
  [⟨"file".toList, audioFilePath⟩,
   ⟨"model".toList, "gpt-4o-mini-transcribe".toList⟩,
   ⟨"response_format".toList, "text".toList⟩] ++
  (match dictionaryContext with
   | some ctx =>
     if !ctx.isEmpty then
       [⟨"prompt".toList, "This audio may contain these terms: ".toList ++ ctx⟩]
     else []
   | none => [])

/-- Form data built by `transcribeWithGPT4oTranscribe`
(gpt4o-transcriber.ts, lines 50-85). -/
def gpt4oTranscribeForm (audioFilePath : List Char)
    (dictionaryContext : Option (List Char)) : List FormEntry :=
  [⟨"file".toList, audioFilePath⟩,
   ⟨"model".toList, "gpt-4o-transcribe".toList⟩,
   ⟨"response_format".toList, "text".toList⟩] ++
  (match dictionaryContext with
   | some ctx =>
     if !ctx.isEmpty then
       [⟨"prompt".toList, "This audio may contain these terms: ".toList ++ ctx⟩]
     else []
   | none => [])

/-- Form data built by `transcribeWithWhisper1`
(gpt4o-transcriber.ts, lines 87-123); this backend also pins the
language field to English. -/
def whisper1Form (audioFilePath : List Char)
    (dictionaryContext : Option (List Char)) : List FormEntry :=
  [⟨"file".toList, audioFilePath⟩,
   ⟨"model".toList, "whisper-1".toList⟩,
   ⟨"response_format".toList, "text".toList⟩,
   ⟨"language".toList, "en".toList⟩] ++
  (match dictionaryContext with
   | some ctx =>
     if !ctx.isEmpty then
       [⟨"prompt".toList, "This audio may contain these terms: ".toList ++ ctx⟩]
     else []
   | none => [])

/-! ### Local whisper addon and model cache -/

/-- Native handle state (`WhisperHandle` struct in the whisper addon
C++ source): the whisper context pointer (`none` models nullptr), the
freed flag, and the stored model path.  The mutex is not modelled; the
code under analysis is single-threaded per call. -/
structure WhisperHandle where
  ctx : Option Nat
  freed : Bool
  model_path : List Char
deriving DecidableEq

/-- `free_model` (whisper addon C++ source, lines 395-408): under the
handle's lock, release the context only when the handle is not yet
freed and the context is non-null, then null the pointer and set the
freed flag; otherwise do nothing.  The second component records whether
`whisper_free` was actually invoked on the native context. -/
def free_model (h : WhisperHandle) : WhisperHandle × Bool :=
  if h.freed = false ∧ h.ctx.isSome then
    ({ h with ctx := none, freed := true }, true)
  else (h, false)

/-- State of the TypeScript `WhisperCpp` wrapper: its `handle` field is
`null` before `load` and after `free`. -/
structure WhisperCpp where
  handle : Option WhisperHandle
deriving DecidableEq

/-- `WhisperCpp.free` (whisper-cpp wrapper, lines 158-164): when a
handle is present, call the native `free` binding on it and null the
field; otherwise do nothing.  The second component records whether the
native context was released by this call. -/
def WhisperCpp.free (w : WhisperCpp) : WhisperCpp × Bool :=
  match w.handle with
  | some h => ({ handle := none }, (free_model h).2)
  | none => (w, false)

/-- Module-level state of the local whisper transcriber
(src/unnamed/part_002): addon availability, the cached addon handle,
the id of the model it holds, the legacy `currentModelId`, and the set
of downloaded model files.  `freedHandles` is a ghost trace recording
every handle passed to `whisperAddon.free`, in order. -/
structure WhisperState where
  addonAvailable : Bool
  whisperHandle : Option Nat
  loadedModelId : Option (List Char)
  currentModelId : Option (List Char)
  downloaded : List (List Char)
  freedHandles : List Nat
deriving DecidableEq

/-- `isModelDownloaded` (part_002): whether the model file exists in
the models directory. -/
def isModelDownloaded (s : WhisperState) (modelId : List Char) : Bool :=
  s.downloaded.contains modelId

/-- `preloadModel` (part_002, lines 154-207).  `initResult` abstracts
the outcome of `whisperAddon.init` (`none` models a throw, which the
catch block turns into a cleared handle and `false`).  Skips when the
addon is missing or the model is not downloaded; returns early when the
same model is already resident; otherwise frees any currently resident
handle before initialising the new model. -/
def preloadModel (s : WhisperState) (modelId : List Char)
    (initResult : Option Nat) : WhisperState × Bool :=
  if s.addonAvailable = false then (s, false)
  else if isModelDownloaded s modelId = false then (s, false)
  else if s.whisperHandle.isSome = true ∧ s.loadedModelId = some modelId then
    (s, true)
  else
    let s1 :=
      match s.whisperHandle with
      | some h =>
        { s with whisperHandle := none, loadedModelId := none,
                 freedHandles := s.freedHandles ++ [h] }
      | none => s
    match initResult with
    | some h =>
      ({ s1 with whisperHandle := some h, loadedModelId := some modelId,
                 currentModelId := some modelId }, true)
    | none =>
      ({ s1 with whisperHandle := none, loadedModelId := none }, false)

/-! ### Audio buffer padding (`transcribeFromBuffer`, part_002 lines 385-398) -/

/-- Sample rate assumed by `transcribeFromBuffer`. -/
def sampleRate : Nat := 16000

/-- Bytes per 16-bit PCM sample. -/
def bytesPerSample : Nat := 2

/-- Engine-imposed minimum duration in milliseconds. -/
def minDurationMs : Nat := 1100

/-- `Math.ceil(minDurationMs * sampleRate / 1000)`. -/
def minSamples : Nat := (((minDurationMs * sampleRate : ℚ) / 1000).ceil).toNat

/-- `minSamples * bytesPerSample`. -/
def minBytes : Nat := minSamples * bytesPerSample

/-- Node's `src.copy(dst, 0)`: overwrite the start of `dst` with as
much of `src` as fits, keeping the rest of `dst`. -/
def bufCopy (src dst : List Nat) : List Nat :=
  src.take dst.length ++ dst.drop (min src.length dst.length)

/-- The padding step of `transcribeFromBuffer` (part_002, lines
391-398): when the PCM buffer is shorter than `minBytes`, allocate a
zero-filled buffer of `minBytes` bytes and copy the input to its start;
otherwise the buffer is used as is. -/
def processedBuffer (audioBuffer : List Nat) : List Nat :=
  if audioBuffer.length < minBytes then
    bufCopy audioBuffer (List.replicate minBytes 0)
  else audioBuffer

/-! ### Fast streaming paster (src/src/input/fast-streaming-paster.ts) -/

/-- `SPACE_TIMEOUT` (fast-streaming-paster.ts, line 11): 10 seconds. -/
def SPACE_TIMEOUT : Int := 10000

/-- Test of the regex used at line 89 of fast-streaming-paster.ts on
the trimmed previous text: the string ends with `.`, `!` or `?`,
optionally followed by a closing double quote, optionally followed by
whitespace. -/
def sentenceEndRegexTest (s : List Char) : Bool :=
  match s.reverse.dropWhile jsIsSpace with
  | [] => false
  | c :: rest =>
    (c == '.' || c == '!' || c == '?') ||
    (c == '"' &&
      (match rest with
       | d :: _ => d == '.' || d == '!' || d == '?'
       | [] => false))

/-- The regex class A-Z used at line 113: an ASCII capital letter. -/
def isAsciiUpper (c : Char) : Bool :=
  65 ≤ c.toNat && c.toNat ≤ 90

/-- A character of the split class at line 115: whitespace or one of
the listed punctuation characters. -/
def splitSep (c : Char) : Bool :=
  jsIsSpace c || c == ',' || c == '.' || c == '!' || c == '?' ||
  c == ';' || c == ':'

/-- `text.substring(1).split(separators)[0]` as computed at line 115:
the run of non-separator characters at the front of the string. -/
def firstWord (s : List Char) : List Char :=
  s.takeWhile (fun c => !splitSep c)

/-- The fixed proper-noun allow-list (lines 118-124). -/
def properNouns : List (List Char) :=
  ["I", "Monday", "Tuesday", "Wednesday", "Thursday", "Friday",
   "Saturday", "Sunday", "January", "February", "March", "April",
   "May", "June", "July", "August", "September", "October",
   "November", "December", "Google", "Apple", "Microsoft", "Amazon",
   "Facebook", "Twitter", "LinkedIn", "GitHub", "OpenAI", "ChatGPT",
   "Jarvis", "CEO", "API", "AI", "ML", "USA", "UK", "EU"].map
    String.toList

/-- JS `toLowerCase` on the ASCII range. -/
def jsToLowerChar (c : Char) : Char :=
  if 65 ≤ c.toNat ∧ c.toNat ≤ 90 then Char.ofNat (c.toNat + 32) else c

/-- JS `toUpperCase` on the ASCII range. -/
def jsToUpperChar (c : Char) : Char :=
  if 97 ≤ c.toNat ∧ c.toNat ≤ 122 then Char.ofNat (c.toNat - 32) else c

/-- `adjustContinuationCapitalization` (fast-streaming-paster.ts,
lines 109-148).  Returns the input unchanged unless it is a space
followed by an ASCII capital whose first word is neither a known proper
noun, nor the start of quoted text, nor an all-caps word longer than
one character; in the remaining case the letter after the space is
lowercased. -/
def adjustContinuationCapitalization (text : List Char) : List Char :=
  match text with
  | c0 :: c1 :: rest =>
    if c0 ≠ ' ' then text
    else if isAsciiUpper c1 = false then text
    else
      let fw := firstWord (c1 :: rest)
      if fw ∈ properNouns then text
      else if (jsTrim text).head? = some '"' ∨
              (jsTrim text).head? = some (Char.ofNat 39) then text
      else if fw.map jsToUpperChar = fw ∧ fw.length > 1 then text
      else ' ' :: jsToLowerChar c1 :: rest
  | _ => text

/-- `addSimpleSmartSpacing` (fast-streaming-paster.ts, lines 82-103).
When the previous paste happened (`lastPasteTime > 0`) less than
`SPACE_TIMEOUT` ms ago, prepend one space and, unless the previous
pasted text ended a sentence, run the continuation-capitalization
adjustment; otherwise return the text unchanged. -/
def addSimpleSmartSpacing (lastPasteTime : Int) (lastPastedText : List Char)
    (now : Int) (text : List Char) : List Char :=
  let timeSinceLastPaste := now - lastPasteTime
  if lastPasteTime > 0 ∧ timeSinceLastPaste < SPACE_TIMEOUT then
    let lastTextEndsWithSentence :=
      !lastPastedText.isEmpty && sentenceEndRegexTest (jsTrim lastPastedText)
    let spacedText := ' ' :: text
    if lastTextEndsWithSentence then spacedText
    else adjustContinuationCapitalization spacedText
  else text

/-- State touched by `pasteFast`: the paste session
(`lastPasteTime`, `lastPastedText`), the system clipboard, and the
pending deferred clipboard write scheduled by
`scheduleClipboardWrite`. -/
structure PasteState where
  lastPasteTime : Int
  lastPastedText : List Char
  clipboard : List Char
  pendingClipboard : Option (List Char)
deriving DecidableEq

/-- Outcome of `tryNativePaste` (lines 154-182): paste succeeded, the
native module is unavailable (fall back), or the module reported no
focused text input (thrown to the caller). -/
inductive NativePasteOutcome
  | success
  | unavailable
  | noTextInput
deriving DecidableEq

/-- Outcome of `tryAppleScriptPaste` (lines 187-229): success or one of
its rejection reasons. -/
inductive AppleScriptOutcome
  | success
  | copyFailed
  | copyTimeout
  | pasteFailed
  | pasteTimeout
deriving DecidableEq

/-- Errors `pasteFast` can surface to its caller. -/
inductive PasteError
  | noTextInput
  | copyFailed
  | copyTimeout
  | pasteFailed
  | pasteTimeout
deriving DecidableEq

/-- The rejection carried by an AppleScript-path outcome, if any. -/
def appleError : AppleScriptOutcome → Option PasteError
  | .success => none
  | .copyFailed => some .copyFailed
  | .copyTimeout => some .copyTimeout
  | .pasteFailed => some .pasteFailed
  | .pasteTimeout => some .pasteTimeout

/-- `pasteFast` (fast-streaming-paster.ts, lines 17-76).  Empty or
whitespace-only text returns immediately.  Otherwise the text is
formatted by `addSimpleSmartSpacing`; on a successful native or
AppleScript paste the session is updated and a deferred clipboard write
of the formatted text is scheduled; when the native module throws
`NO_TEXT_INPUT` or the AppleScript fallback rejects, the formatted text
is written synchronously to the clipboard and the originating error is
re-raised (modelled as `some` error in the second component). -/
def pasteFast (st : PasteState) (now : Int) (text : List Char)
    (native : NativePasteOutcome) (apple : AppleScriptOutcome) :
    PasteState × Option PasteError :=
  if (jsTrim text).isEmpty then (st, none)
  else
    let smartText := addSimpleSmartSpacing st.lastPasteTime st.lastPastedText now text
    match native with
    | .success =>
      ({ st with lastPasteTime := now, lastPastedText := smartText,
                 pendingClipboard := some smartText }, none)
    | .noTextInput =>
      ({ st with clipboard := smartText }, some .noTextInput)
    | .unavailable =>
      match appleError apple with
      | none =>
        ({ st with lastPasteTime := now, lastPastedText := smartText,
                   pendingClipboard := some smartText }, none)
      | some e => ({ st with clipboard := smartText }, some e)

/-! ### Helper lemmas -/

/-- The minimum sample count evaluates to 17600 (= 1100 ms at 16 kHz). -/
theorem minSamples_eq : minSamples = 17600 := by
  have h : (((1100 * 16000 : ℚ) / 1000).ceil).toNat = 17600 := by
    norm_num [Rat.ceil]
    rfl
  simpa [minSamples, minDurationMs, sampleRate] using h

/-- The minimum byte count evaluates to 35200. -/
theorem minBytes_eq : minBytes = 35200 := by
  unfold minBytes bytesPerSample
  rw [minSamples_eq]

/-- Dropping a predicate-failing last element commutes with dropWhile. -/
theorem dropWhile_append_singleton (p : Char → Bool) (c : Char) (l : List Char)
    (hc : p c = false) :
    List.dropWhile p (l ++ [c]) = List.dropWhile p l ++ [c] := by
  induction l with
  | nil => simp [List.dropWhile, hc]
  | cons a t ih =>
    by_cases ha : p a = true
    · simp [List.dropWhile_cons, ha, ih]
    · simp at ha
      simp [List.dropWhile_cons, ha]

/-- Trimming absorbs a leading space. -/
theorem jsTrim_cons_space (s : List Char) : jsTrim (' ' :: s) = jsTrim s := by
  unfold jsTrim
  simp [List.dropWhile_cons, jsIsSpace]

/-- Trimming a string with a non-space head keeps that head. -/
theorem jsTrim_head_of_not_space (c : Char) (s : List Char)
    (hc : jsIsSpace c = false) :
    (jsTrim (c :: s)).head? = some c := by
  unfold jsTrim
  rw [List.dropWhile_cons, hc]
  simp only [Bool.false_eq_true, if_false, List.reverse_cons]
  rw [dropWhile_append_singleton jsIsSpace c s.reverse hc]
  simp

/-- Distinct characters compare unequal under BEq. -/
theorem char_beq_eq_false_of_ne (c d : Char) (h : c ≠ d) : (c == d) = false := by
  rw [beq_eq_false_iff_ne]
  exact h

/-- Code-point bounds of an ASCII capital. -/
theorem isAsciiUpper_toNat (c : Char) (h : isAsciiUpper c = true) :
    65 ≤ c.toNat ∧ c.toNat ≤ 90 := by
  unfold isAsciiUpper at h
  simpa using h

/-- An ASCII capital is not whitespace. -/
theorem upper_not_space (c : Char) (h : isAsciiUpper c = true) :
    jsIsSpace c = false := by
  obtain ⟨h1, h2⟩ := isAsciiUpper_toNat c h
  unfold jsIsSpace
  rw [char_beq_eq_false_of_ne c ' ' (by intro he; subst he; simp at h1),
      char_beq_eq_false_of_ne c '\t' (by intro he; subst he; simp at h1),
      char_beq_eq_false_of_ne c '\n' (by intro he; subst he; simp at h1),
      char_beq_eq_false_of_ne c '\r' (by intro he; subst he; simp at h1),
      char_beq_eq_false_of_ne c (Char.ofNat 11) (by intro he; subst he; simp at h1),
      char_beq_eq_false_of_ne c (Char.ofNat 12) (by intro he; subst he; simp at h1)]
  rfl

/-- An ASCII capital is not a word separator of the split class. -/
theorem upper_not_sep (c : Char) (h : isAsciiUpper c = true) :
    splitSep c = false := by
  obtain ⟨h1, h2⟩ := isAsciiUpper_toNat c h
  unfold splitSep
  rw [upper_not_space c h,
      char_beq_eq_false_of_ne c ',' (by intro he; subst he; simp at h1),
      char_beq_eq_false_of_ne c '.' (by intro he; subst he; simp at h1),
      char_beq_eq_false_of_ne c '!' (by intro he; subst he; simp at h1),
      char_beq_eq_false_of_ne c '?' (by intro he; subst he; simp at h1),
      char_beq_eq_false_of_ne c ';' (by intro he; subst he; simp at h1),
      char_beq_eq_false_of_ne c ':' (by intro he; subst he; simp at h1)]
  rfl

/-- When the character after the space is not an ASCII capital, the
capitalization adjustment leaves the text alone. -/
theorem adjust_cons_not_upper (c : Char) (rest : List Char)
    (h : isAsciiUpper c = false) :
    adjustContinuationCapitalization (' ' :: c :: rest) = ' ' :: c :: rest := by
  simp only [adjustContinuationCapitalization]
  rw [if_neg (by simp), if_pos h]

/-- Unfolding of the capitalization adjustment when the character after
the space is an ASCII capital. -/
theorem adjust_cons_upper (c : Char) (rest : List Char)
    (hupper : isAsciiUpper c = true) :
    adjustContinuationCapitalization (' ' :: c :: rest) =
      (if firstWord (c :: rest) ∈ properNouns then ' ' :: c :: rest
       else if (jsTrim (' ' :: c :: rest)).head? = some '"' ∨
               (jsTrim (' ' :: c :: rest)).head? = some (Char.ofNat 39) then
         ' ' :: c :: rest
       else if (firstWord (c :: rest)).map jsToUpperChar = firstWord (c :: rest) ∧
               (firstWord (c :: rest)).length > 1 then ' ' :: c :: rest
       else ' ' :: jsToLowerChar c :: rest) := by
  simp only [adjustContinuationCapitalization]
  rw [if_neg (by simp), if_neg (by simp [hupper])]

/-- Every entry of the proper-noun allow-list starts with an ASCII
capital. -/
theorem properNouns_head_upper :
    properNouns.all (fun w =>
      match w with
      | [] => false
      | d :: _ => isAsciiUpper d) = true := by decide

/-- The empty word is not in the allow-list. -/
theorem nil_not_properNoun : ([] : List Char) ∉ properNouns := by decide

/-- A continuation whose first word is in the allow-list is kept. -/
theorem adjust_clause_noun (text : List Char)
    (hfw : firstWord text ∈ properNouns) :
    adjustContinuationCapitalization (' ' :: text) = ' ' :: text := by
  cases text with
  | nil => exact absurd hfw nil_not_properNoun
  | cons c rest =>
    by_cases hsep : splitSep c = true
    · exfalso
      have h0 : firstWord (c :: rest) = [] := by
        simp [firstWord, List.takeWhile_cons, hsep]
      rw [h0] at hfw
      exact nil_not_properNoun hfw
    · have hsep' : splitSep c = false := by simpa using hsep
      have hfw' : firstWord (c :: rest) =
          c :: rest.takeWhile (fun x => !splitSep x) := by
        simp [firstWord, List.takeWhile_cons, hsep']
      have hupper : isAsciiUpper c = true := by
        have h2 := List.all_eq_true.mp properNouns_head_upper _ hfw
        rw [hfw'] at h2
        simpa using h2
      rw [adjust_cons_upper c rest hupper, if_pos hfw]

/-- A continuation starting (after trimming) with a quote is kept. -/
theorem adjust_clause_quote (text : List Char)
    (hq : (jsTrim text).head? = some '"' ∨
          (jsTrim text).head? = some (Char.ofNat 39)) :
    adjustContinuationCapitalization (' ' :: text) = ' ' :: text := by
  cases text with
  | nil => simp [jsTrim] at hq
  | cons c rest =>
    by_cases hup : isAsciiUpper c = true
    · exfalso
      have hhead : (jsTrim (c :: rest)).head? = some c :=
        jsTrim_head_of_not_space c rest (upper_not_space c hup)
      rcases hq with hq | hq <;> rw [hhead] at hq <;>
        (injection hq with hq; subst hq; exact absurd hup (by decide))
    · exact adjust_cons_not_upper c rest (by simpa using hup)

/-- A continuation whose first word is all caps of length above one is
kept. -/
theorem adjust_clause_allcaps (text : List Char)
    (hac : (firstWord text).map jsToUpperChar = firstWord text ∧
           (firstWord text).length > 1) :
    adjustContinuationCapitalization (' ' :: text) = ' ' :: text := by
  cases text with
  | nil => simp [firstWord] at hac
  | cons c rest =>
    by_cases hup : isAsciiUpper c = true
    · rw [adjust_cons_upper c rest hup]
      split_ifs <;> rfl
    · exact adjust_cons_not_upper c rest (by simpa using hup)

/-- In the remaining case the first letter is lowercased. -/
theorem adjust_clause_lower (c : Char) (rest : List Char)
    (hup : isAsciiUpper c = true)
    (hfw : firstWord (c :: rest) ∉ properNouns)
    (hq : ¬((jsTrim (c :: rest)).head? = some '"' ∨
            (jsTrim (c :: rest)).head? = some (Char.ofNat 39)))
    (hac : ¬((firstWord (c :: rest)).map jsToUpperChar = firstWord (c :: rest) ∧
             (firstWord (c :: rest)).length > 1)) :
    adjustContinuationCapitalization (' ' :: c :: rest) =
      ' ' :: jsToLowerChar c :: rest := by
  rw [adjust_cons_upper c rest hup, if_neg hfw]
  rw [jsTrim_cons_space]
  rw [if_neg hq, if_neg hac]

/-- The capitalization adjustment of a spaced text keeps the leading
space and at most lowercases the first letter after it. -/
theorem adjust_space_cases (text : List Char) :
    adjustContinuationCapitalization (' ' :: text) = ' ' :: text ∨
    ∃ c rest, text = c :: rest ∧
      adjustContinuationCapitalization (' ' :: text) =
        ' ' :: jsToLowerChar c :: rest := by
  cases text with
  | nil => left; rfl
  | cons c rest =>
    simp only [adjustContinuationCapitalization]
    rw [if_neg (by simp)]
    split_ifs <;> first | (left; rfl) | (right; exact ⟨c, rest, rfl, rfl⟩)

/-- Concrete chain in which every backend fails. -/
def allFailInvoke : Nat → Option (List Char) → Option (List Char) :=
  fun _ _ => none

/-- Concrete chain in which backend 0 fails and backend 1 answers
"hello". -/
def helloAtOneInvoke : Nat → Option (List Char) → Option (List Char) :=
  fun i _ => if i == 1 then some "hello".toList else none

/-! ### Claim theorems -/

/-- Claim C1, counterexample: when every backend of
`transcribeWithBestModel` fails, the chain does not raise an
`AllBackendsFailedError` carrying the per-backend failures -- no such
error exists in the code.  At the concrete all-failing input the call
evaluates to the plain value `text := null` with all three backends
having been invoked. -/
theorem chain_exhaustion_returns_plain_null_result :
    transcribeWithBestModelRun allFailInvoke none =
      ({ text := none }, [⟨0, none⟩, ⟨1, none⟩, ⟨2, none⟩]) := rfl

/-- Claim C1, amended: if every backend fails, the chain returns the
result value with `text = null` after invoking all three backends in
priority order; no error is raised and no failure list is carried --
exhaustion is signalled to the caller only by the null text, never by a
non-null success value. -/
theorem chain_exhaustion_returns_null
    (invoke : Nat → Option (List Char) → Option (List Char))
    (ctx : Option (List Char))
    (h0 : jsTruthyStr (invoke 0 ctx) = false)
    (h1 : jsTruthyStr (invoke 1 ctx) = false)
    (h2 : jsTruthyStr (invoke 2 ctx) = false) :
    (transcribeWithBestModelRun invoke ctx).1 = { text := none } ∧
    (transcribeWithBestModelRun invoke ctx).2 = [⟨0, ctx⟩, ⟨1, ctx⟩, ⟨2, ctx⟩] := by
  simp [transcribeWithBestModelRun, h0, h1, h2]

/-- Witness for `chain_exhaustion_returns_null` at the all-failing
chain. -/
theorem chain_exhaustion_returns_null_witness :
    jsTruthyStr (allFailInvoke 0 none) = false ∧
    ((transcribeWithBestModelRun allFailInvoke none).1 = { text := none } ∧
     (transcribeWithBestModelRun allFailInvoke none).2 =
       [⟨0, none⟩, ⟨1, none⟩, ⟨2, none⟩]) :=
  ⟨rfl, chain_exhaustion_returns_null allFailInvoke none rfl rfl rfl⟩

/-- Claim C2: the fallback chain invokes backends strictly in priority
order and returns on the first truthy (non-empty) text without
invoking later backends; in particular when backend 0 fails and
backend 1 returns "hello", the result is "hello", the invocation trace
is exactly backends 0 then 1, and backend 2 is never invoked. -/
theorem chain_short_circuit
    (invoke : Nat → Option (List Char) → Option (List Char))
    (ctx : Option (List Char)) :
    (jsTruthyStr (invoke 0 ctx) = true →
      (transcribeWithBestModelRun invoke ctx).1.text = invoke 0 ctx ∧
      (transcribeWithBestModelRun invoke ctx).2 = [⟨0, ctx⟩]) ∧
    (jsTruthyStr (invoke 0 ctx) = false → invoke 1 ctx = some "hello".toList →
      (transcribeWithBestModelRun invoke ctx).1.text = some "hello".toList ∧
      (transcribeWithBestModelRun invoke ctx).2 = [⟨0, ctx⟩, ⟨1, ctx⟩] ∧
      ∀ call ∈ (transcribeWithBestModelRun invoke ctx).2, call.idx ≠ 2) := by
  constructor
  · intro h0
    simp [transcribeWithBestModelRun, h0]
  · intro h0 h1
    have ht : jsTruthyStr (invoke 1 ctx) = true := by
      rw [h1]; decide
    simp only [transcribeWithBestModelRun, h0, ht, h1]
    simp [jsTruthyStr]

/-- Witness for `chain_short_circuit` at the concrete chain in which
backend 0 fails and backend 1 answers "hello". -/
theorem chain_short_circuit_witness :
    jsTruthyStr (helloAtOneInvoke 0 none) = false ∧
    helloAtOneInvoke 1 none = some "hello".toList ∧
    ((transcribeWithBestModelRun helloAtOneInvoke none).1.text =
       some "hello".toList ∧
     (transcribeWithBestModelRun helloAtOneInvoke none).2 =
       [⟨0, none⟩, ⟨1, none⟩] ∧
     ∀ call ∈ (transcribeWithBestModelRun helloAtOneInvoke none).2,
       call.idx ≠ 2) :=
  ⟨rfl, rfl, (chain_short_circuit helloAtOneInvoke none).2 rfl rfl⟩

/-- Claim C3: a PCM buffer shorter than `minBytes` (1100 ms at 16 kHz
mono 16-bit) is zero-padded to exactly `minBytes`, with the original
bytes kept at the front and only zero bytes appended; a buffer of at
least `minBytes` passes through unchanged, so nothing is ever
truncated. -/
theorem transcribeFromBuffer_min_duration (b : List Nat) :
    (b.length < minBytes →
      (processedBuffer b).length = minBytes ∧
      (processedBuffer b).take b.length = b ∧
      (processedBuffer b).drop b.length = List.replicate (minBytes - b.length) 0) ∧
    (minBytes ≤ b.length → processedBuffer b = b) := by
  constructor
  · intro h
    have hproc : processedBuffer b = b ++ List.replicate (minBytes - b.length) 0 := by
      unfold processedBuffer bufCopy
      rw [if_pos h]
      rw [List.length_replicate]
      rw [List.take_of_length_le h.le]
      rw [min_eq_left h.le]
      rw [List.drop_replicate]
    refine ⟨?_, ?_, ?_⟩
    · rw [hproc]; simp; omega
    · rw [hproc, List.take_left]
    · rw [hproc, List.drop_left]
  · intro h
    unfold processedBuffer
    rw [if_neg (by omega)]

/-- Witness for `transcribeFromBuffer_min_duration`: a 3-byte buffer is
padded to 35200 bytes with its bytes in front, and a 40000-byte buffer
passes through unchanged. -/
theorem transcribeFromBuffer_min_duration_witness :
    ([1, 2, 3] : List Nat).length < minBytes ∧
    ((processedBuffer [1, 2, 3]).length = minBytes ∧
     (processedBuffer [1, 2, 3]).take 3 = [1, 2, 3] ∧
     (processedBuffer [1, 2, 3]).drop 3 = List.replicate (minBytes - 3) 0) ∧
    minBytes ≤ (List.replicate 40000 7).length ∧
    processedBuffer (List.replicate 40000 7) = List.replicate 40000 7 :=
  ⟨by rw [minBytes_eq]; decide,
   (transcribeFromBuffer_min_duration [1, 2, 3]).1 (by rw [minBytes_eq]; decide),
   by rw [minBytes_eq, List.length_replicate]; norm_num,
   (transcribeFromBuffer_min_duration (List.replicate 40000 7)).2
     (by rw [minBytes_eq, List.length_replicate]; norm_num)⟩

/-- Claim C4: freeing a loaded handle releases the native context
(first call releases, second call is a no-op that still succeeds), any
already-freed handle is left untouched without error, and a double
`WhisperCpp.free` never releases the context a second time -- so the
native context is released exactly once. -/
theorem free_model_idempotent (h : WhisperHandle)
    (hf : h.freed = false) (hc : h.ctx.isSome = true) :
    (free_model h).2 = true ∧
    free_model (free_model h).1 = ((free_model h).1, false) ∧
    (free_model h).1.freed = true ∧ (free_model h).1.ctx = none ∧
    (∀ h2 : WhisperHandle, h2.freed = true → free_model h2 = (h2, false)) ∧
    (∀ w : WhisperCpp,
      WhisperCpp.free (WhisperCpp.free w).1 = ((WhisperCpp.free w).1, false)) := by
  have h1 : free_model h = ({ h with ctx := none, freed := true }, true) := by
    unfold free_model
    rw [if_pos ⟨hf, hc⟩]
  refine ⟨by rw [h1], ?_, by rw [h1], by rw [h1], ?_, ?_⟩
  · rw [h1]
    unfold free_model
    rw [if_neg (by simp)]
  · intro h2 h2f
    unfold free_model
    rw [if_neg (by simp [h2f])]
  · intro w
    rcases w with ⟨_ | h0⟩ <;> simp [WhisperCpp.free]

/-- Witness for `free_model_idempotent` at a concrete loaded handle. -/
theorem free_model_idempotent_witness :
    (⟨some 0, false, []⟩ : WhisperHandle).freed = false ∧
    (⟨some 0, false, []⟩ : WhisperHandle).ctx.isSome = true ∧
    ((free_model ⟨some 0, false, []⟩).2 = true ∧
     free_model (free_model ⟨some 0, false, []⟩).1 =
       ((free_model ⟨some 0, false, []⟩).1, false) ∧
     (free_model ⟨some 0, false, []⟩).1.freed = true ∧
     (free_model ⟨some 0, false, []⟩).1.ctx = none ∧
     (∀ h2 : WhisperHandle, h2.freed = true → free_model h2 = (h2, false)) ∧
     (∀ w : WhisperCpp,
       WhisperCpp.free (WhisperCpp.free w).1 = ((WhisperCpp.free w).1, false))) :=
  ⟨rfl, rfl, free_model_idempotent ⟨some 0, false, []⟩ rfl rfl⟩

/-- Claim C5: when `preloadModel` runs while a different model is
resident, the resident handle is freed (appended to the free trace)
before the new model is loaded, and the resulting resident handle is
exactly the outcome of the new `init` call -- the state field holds at
most one handle, so exactly one model can be resident. -/
theorem preloadModel_single_resident (s : WhisperState) (modelId : List Char)
    (initResult : Option Nat) (h : Nat) (m : List Char)
    (ha : s.addonAvailable = true)
    (hd : isModelDownloaded s modelId = true)
    (hh : s.whisperHandle = some h)
    (hm : s.loadedModelId = some m)
    (hne : m ≠ modelId) :
    (preloadModel s modelId initResult).1.freedHandles = s.freedHandles ++ [h] ∧
    (preloadModel s modelId initResult).1.whisperHandle = initResult ∧
    (preloadModel s modelId initResult).1.loadedModelId =
      (if initResult.isSome then some modelId else none) := by
  unfold preloadModel
  rw [if_neg (by simp [ha]), if_neg (by simp [hd]),
      if_neg (by simp [hm]; intro _ hcontra; exact hne hcontra)]
  rw [hh]
  cases initResult <;> simp

/-- Witness for `preloadModel_single_resident`: a state with model "a"
resident (handle 5) asked to preload downloaded model "b" with a
successful `init` returning handle 9. -/
theorem preloadModel_single_resident_witness :
    (⟨true, some 5, some "a".toList, none, ["b".toList], []⟩ :
        WhisperState).addonAvailable = true ∧
    isModelDownloaded
      ⟨true, some 5, some "a".toList, none, ["b".toList], []⟩ "b".toList = true ∧
    "a".toList ≠ "b".toList ∧
    ((preloadModel ⟨true, some 5, some "a".toList, none, ["b".toList], []⟩
        "b".toList (some 9)).1.freedHandles = [] ++ [5] ∧
     (preloadModel ⟨true, some 5, some "a".toList, none, ["b".toList], []⟩
        "b".toList (some 9)).1.whisperHandle = some 9 ∧
     (preloadModel ⟨true, some 5, some "a".toList, none, ["b".toList], []⟩
        "b".toList (some 9)).1.loadedModelId =
       (if (some 9 : Option Nat).isSome then some "b".toList else none)) :=
  ⟨rfl, by decide, by decide,
   preloadModel_single_resident
     ⟨true, some 5, some "a".toList, none, ["b".toList], []⟩
     "b".toList (some 9) 5 "a".toList rfl (by decide) rfl rfl (by decide)⟩

/-- Claim C6: while a paste session is live (a previous paste exists
and happened less than 10000 ms ago), the formatter prepends exactly
one space to the new text, at most additionally lowercasing its first
letter; when the session is not live, the text is returned
unmodified. -/
theorem addSimpleSmartSpacing_live_session (lpt : Int) (lptext : List Char)
    (now : Int) (text : List Char) :
    ((lpt > 0 ∧ now - lpt < SPACE_TIMEOUT) →
      ∃ t, addSimpleSmartSpacing lpt lptext now text = ' ' :: t ∧
        t.length = text.length ∧
        (t = text ∨ ∃ c rest, text = c :: rest ∧ t = jsToLowerChar c :: rest)) ∧
    (¬(lpt > 0 ∧ now - lpt < SPACE_TIMEOUT) →
      addSimpleSmartSpacing lpt lptext now text = text) := by
  constructor
  · intro hlive
    simp only [addSimpleSmartSpacing]
    rw [if_pos hlive]
    cases hs : (!lptext.isEmpty && sentenceEndRegexTest (jsTrim lptext)) with
    | true =>
      simp only [hs, if_true]
      exact ⟨text, rfl, rfl, Or.inl rfl⟩
    | false =>
      simp only [hs, Bool.false_eq_true, if_false]
      rcases adjust_space_cases text with h | ⟨c, rest, hr, h⟩
      · exact ⟨text, h, rfl, Or.inl rfl⟩
      · refine ⟨jsToLowerChar c :: rest, h, ?_, Or.inr ⟨c, rest, hr, rfl⟩⟩
        subst hr
        simp
  · intro hnot
    simp only [addSimpleSmartSpacing]
    rw [if_neg hnot]

/-- Witness for `addSimpleSmartSpacing_live_session`: pasting "World"
at time 1 and "there" at time 5001 (a live session). -/
theorem addSimpleSmartSpacing_live_session_witness :
    ((1 : Int) > 0 ∧ (5001 : Int) - 1 < SPACE_TIMEOUT) ∧
    (∃ t, addSimpleSmartSpacing 1 "World".toList 5001 "there".toList =
        ' ' :: t ∧
      t.length = "there".toList.length ∧
      (t = "there".toList ∨
       ∃ c rest, "there".toList = c :: rest ∧ t = jsToLowerChar c :: rest)) :=
  ⟨⟨by decide, by decide⟩,
   (addSimpleSmartSpacing_live_session 1 "World".toList 5001
      "there".toList).1 ⟨by decide, by decide⟩⟩

/-- Claim C7: in a live session whose previous text does not end a
sentence, the continuation keeps its capitalization when its first
word is in the proper-noun allow-list (e.g. "Monday"), when the
trimmed text begins with a quotation mark, or when the first word is
fully upper-case and longer than one character; otherwise, when the
text begins with an ASCII capital, that first letter is lowercased. -/
theorem continuation_capitalization (lpt : Int) (lptext : List Char)
    (now : Int) (text : List Char)
    (hlive : lpt > 0 ∧ now - lpt < SPACE_TIMEOUT)
    (hns : (!lptext.isEmpty && sentenceEndRegexTest (jsTrim lptext)) = false) :
    (firstWord text ∈ properNouns →
      addSimpleSmartSpacing lpt lptext now text = ' ' :: text) ∧
    ((jsTrim text).head? = some '"' ∨ (jsTrim text).head? = some (Char.ofNat 39) →
      addSimpleSmartSpacing lpt lptext now text = ' ' :: text) ∧
    ((firstWord text).map jsToUpperChar = firstWord text ∧
        (firstWord text).length > 1 →
      addSimpleSmartSpacing lpt lptext now text = ' ' :: text) ∧
    (∀ c rest, text = c :: rest → isAsciiUpper c = true →
      firstWord text ∉ properNouns →
      ¬((jsTrim text).head? = some '"' ∨
        (jsTrim text).head? = some (Char.ofNat 39)) →
      ¬((firstWord text).map jsToUpperChar = firstWord text ∧
        (firstWord text).length > 1) →
      addSimpleSmartSpacing lpt lptext now text =
        ' ' :: jsToLowerChar c :: rest) := by
  have hr : addSimpleSmartSpacing lpt lptext now text =
      adjustContinuationCapitalization (' ' :: text) := by
    simp only [addSimpleSmartSpacing]
    rw [if_pos hlive]
    simp only [hns, Bool.false_eq_true, if_false]
  refine ⟨?_, ?_, ?_, ?_⟩
  · intro hfw
    rw [hr, adjust_clause_noun text hfw]
  · intro hq
    rw [hr, adjust_clause_quote text hq]
  · intro hac
    rw [hr, adjust_clause_allcaps text hac]
  · intro c rest htext hup hfw hq hac
    subst htext
    rw [hr, adjust_clause_lower c rest hup hfw hq hac]

/-- Witness for `continuation_capitalization`: after pasting "World"
(no sentence end), a continuation beginning with "Monday" keeps its
capital. -/
theorem continuation_capitalization_witness :
    ((1 : Int) > 0 ∧ (5000 : Int) - 1 < SPACE_TIMEOUT) ∧
    (!"World".toList.isEmpty && sentenceEndRegexTest (jsTrim "World".toList))
      = false ∧
    firstWord "Monday meeting".toList ∈ properNouns ∧
    addSimpleSmartSpacing 1 "World".toList 5000 "Monday meeting".toList =
      ' ' :: "Monday meeting".toList :=
  ⟨⟨by decide, by decide⟩, by decide, by decide,
   (continuation_capitalization 1 "World".toList 5000 "Monday meeting".toList
      ⟨by decide, by decide⟩ (by decide)).1 (by decide)⟩

/-- Claim C8: when the native module is unavailable and the
AppleScript fallback also fails, `pasteFast` synchronously writes the
formatted text to the clipboard, re-raises the originating error, and
leaves the paste session (`lastPasteTime`, `lastPastedText`) and the
pending deferred clipboard write unchanged. -/
theorem pasteFast_total_failure (st : PasteState) (now : Int)
    (text : List Char) (apple : AppleScriptOutcome) (e : PasteError)
    (hne : (jsTrim text).isEmpty = false)
    (happ : appleError apple = some e) :
    (pasteFast st now text .unavailable apple).2 = some e ∧
    (pasteFast st now text .unavailable apple).1.clipboard =
      addSimpleSmartSpacing st.lastPasteTime st.lastPastedText now text ∧
    (pasteFast st now text .unavailable apple).1.lastPasteTime =
      st.lastPasteTime ∧
    (pasteFast st now text .unavailable apple).1.lastPastedText =
      st.lastPastedText ∧
    (pasteFast st now text .unavailable apple).1.pendingClipboard =
      st.pendingClipboard := by
  unfold pasteFast
  rw [if_neg (by simp [hne])]
  simp [happ]

/-- Witness for `pasteFast_total_failure` at a concrete failed paste
(copy subprocess timeout). -/
theorem pasteFast_total_failure_witness :
    (jsTrim "hi".toList).isEmpty = false ∧
    appleError .copyTimeout = some .copyTimeout ∧
    ((pasteFast ⟨0, [], [], none⟩ 7 "hi".toList .unavailable
        .copyTimeout).2 = some .copyTimeout ∧
     (pasteFast ⟨0, [], [], none⟩ 7 "hi".toList .unavailable
        .copyTimeout).1.clipboard =
       addSimpleSmartSpacing (0 : Int) [] 7 "hi".toList ∧
     (pasteFast ⟨0, [], [], none⟩ 7 "hi".toList .unavailable
        .copyTimeout).1.lastPasteTime = (0 : Int) ∧
     (pasteFast ⟨0, [], [], none⟩ 7 "hi".toList .unavailable
        .copyTimeout).1.lastPastedText = ([] : List Char) ∧
     (pasteFast ⟨0, [], [], none⟩ 7 "hi".toList .unavailable
        .copyTimeout).1.pendingClipboard = (none : Option (List Char))) :=
  ⟨by decide, rfl,
   pasteFast_total_failure ⟨0, [], [], none⟩ 7 "hi".toList .copyTimeout
     .copyTimeout (by decide) rfl⟩

/-- Claim C9: a non-empty dictionary context is handed to each of the
three backends as one extra form field "prompt" holding exactly the
labeled hint string, every other form field being identical to the
hint-less request; and the fallback chain passes the identical context
to every backend it invokes. -/
theorem recognition_hints_labeled (path ctx : List Char) (hne : ctx ≠ []) :
    gpt4oMiniForm path (some ctx) =
      gpt4oMiniForm path none ++
        [⟨"prompt".toList, "This audio may contain these terms: ".toList ++ ctx⟩] ∧
    gpt4oTranscribeForm path (some ctx) =
      gpt4oTranscribeForm path none ++
        [⟨"prompt".toList, "This audio may contain these terms: ".toList ++ ctx⟩] ∧
    whisper1Form path (some ctx) =
      whisper1Form path none ++
        [⟨"prompt".toList, "This audio may contain these terms: ".toList ++ ctx⟩] ∧
    (∀ invoke : Nat → Option (List Char) → Option (List Char),
      ∀ call ∈ (transcribeWithBestModelRun invoke (some ctx)).2,
        call.hints = some ctx) := by
  have hemp : ctx.isEmpty = false := by
    cases ctx with
    | nil => exact absurd rfl hne
    | cons a l => rfl
  refine ⟨?_, ?_, ?_, ?_⟩
  · simp [gpt4oMiniForm, hemp]
  · simp [gpt4oTranscribeForm, hemp]
  · simp [whisper1Form, hemp]
  · intro invoke call hcall
    simp only [transcribeWithBestModelRun] at hcall
    split_ifs at hcall <;> simp at hcall <;>
      first
      | (subst hcall; rfl)
      | (rcases hcall with h | h <;>
          first
          | (subst h; rfl)
          | (rcases h with h | h <;> subst h <;> rfl))

/-- Witness for `recognition_hints_labeled` at a concrete path and
dictionary context. -/
theorem recognition_hints_labeled_witness :
    "jarvis".toList ≠ ([] : List Char) ∧
    (gpt4oMiniForm "a.wav".toList (some "jarvis".toList) =
      gpt4oMiniForm "a.wav".toList none ++
        [⟨"prompt".toList,
          "This audio may contain these terms: ".toList ++ "jarvis".toList⟩] ∧
     gpt4oTranscribeForm "a.wav".toList (some "jarvis".toList) =
      gpt4oTranscribeForm "a.wav".toList none ++
        [⟨"prompt".toList,
          "This audio may contain these terms: ".toList ++ "jarvis".toList⟩] ∧
     whisper1Form "a.wav".toList (some "jarvis".toList) =
      whisper1Form "a.wav".toList none ++
        [⟨"prompt".toList,
          "This audio may contain these terms: ".toList ++ "jarvis".toList⟩] ∧
     (∀ invoke : Nat → Option (List Char) → Option (List Char),
       ∀ call ∈ (transcribeWithBestModelRun invoke (some "jarvis".toList)).2,
         call.hints = some "jarvis".toList)) :=
  ⟨by decide,
   recognition_hints_labeled "a.wav".toList "jarvis".toList (by decide)⟩

/-- Claim C10: on empty or whitespace-only input, `pasteFast` returns
normally with no error, no clipboard write, no scheduled write, no
session change, and independently of the outcomes of the two paste
paths (neither is attempted). -/
theorem pasteFast_empty_text_noop (st : PasteState) (now : Int)
    (text : List Char) (native : NativePasteOutcome)
    (apple : AppleScriptOutcome)
    (h : (jsTrim text).isEmpty = true) :
    pasteFast st now text native apple = (st, none) := by
  unfold pasteFast
  rw [if_pos h]

/-- Witness for `pasteFast_empty_text_noop` at whitespace-only text. -/
theorem pasteFast_empty_text_noop_witness :
    (jsTrim "  ".toList).isEmpty = true ∧
    pasteFast ⟨3, "x".toList, "c".toList, none⟩ 9 "  ".toList .success
        .success = (⟨3, "x".toList, "c".toList, none⟩, none) :=
  ⟨by decide,
   pasteFast_empty_text_noop ⟨3, "x".toList, "c".toList, none⟩ 9 "  ".toList
     .success .success (by decide)⟩

end Jarvis
